import Mathlib

/-
  Verification of packages/tushan/client/hooks/useConfigureAdminRouterFromChildren.ts

  Shallow embedding: the element tree walked by the classifier is the mutual
  inductive ReactNode / NodeList; React hook state cells are threaded
  explicitly; the shared menu store is an explicit value.  Marker prop types
  (CategoryProps, CustomRoutesProp, ResourceProps) and the menu store come
  from files outside this hook and are modelled from their use sites and the
  design documentation.
-/

namespace Tushan

/-- Path segment: the props of a Category marker excluding its children
(source line 176 destructures props into children and the rest).  Modelled
from the spec: the Category component file is not part of the sources; its
props are display metadata (label, icon) plus children. -/
structure TushanCategoryPathInfo where
  label : String
  icon : Option String := none
deriving DecidableEq

/-- Props of a CustomRoute marker.  Modelled from the spec: the CustomRoute
component file is not part of the sources; per the design document a custom
route declares a name, label, icon, a no-layout flag and a no-menu flag. -/
structure CustomRoutesProp where
  name : String
  label : Option String := none
  icon : Option String := none
  noLayout : Bool := false
  noMenu : Bool := false
deriving DecidableEq

/-- Props of a Resource marker.  Modelled from the spec: the Resource
component file is not part of the sources; it declares identifying metadata
(name, and the optional label and icon read by the menu registrar). -/
structure ResourceProps where
  name : String
  label : Option String := none
  icon : Option String := none
deriving DecidableEq

mutual

/-- A React child as inspected by the classifier.  The constructors mirror
the runtime type tests of source lines 152-207: Fragment, Category,
CustomRoute and Resource elements; other stands for any other valid element
(falls through to the components fallback); invalid stands for a child that
fails React.isValidElement (null, string, boolean, ...), skipped at line 153.
The id fields let distinct unrecognized children be distinguished. -/
inductive ReactNode where
  | fragment (children : NodeList)
  | category (info : TushanCategoryPathInfo) (children : NodeList)
  | customRoute (props : CustomRoutesProp)
  | resource (props : ResourceProps)
  | other (id : Nat)
  | invalid (id : Nat)
deriving DecidableEq

/-- The ordered list of children traversed by Children.forEach. -/
inductive NodeList where
  | nil
  | cons (hd : ReactNode) (tl : NodeList)
deriving DecidableEq

end

/-- A classified entry pairing the accumulated path with the element, the
shape pushed at source lines 198 and 203. -/
structure PathedElement where
  path : List TushanCategoryPathInfo
  element : ReactNode
deriving DecidableEq

/-- The four classified lists (RoutesAndResources, source lines 218-229). -/
structure RoutesAndResources where
  customRoutesWithLayout : List PathedElement
  customRoutesWithoutLayout : List ReactNode
  resources : List PathedElement
  components : List ReactNode
deriving DecidableEq

/-- Source lines 141-216: walk the children, flattening Fragment with the
same path and Category with the path extended by the props of the Category
(minus its children), bucketing CustomRoute by its noLayout flag, collecting
Resource entries, and appending every valid element to components as the
unconditional fallback (line 207), after the recursive lists of a wrapper
(lines 170 and 188). -/
def getRoutesAndResourceFromNodes : NodeList → List TushanCategoryPathInfo → RoutesAndResources
  | .nil, _ => ⟨[], [], [], []⟩
  | .cons element rest, path =>
    let tail := getRoutesAndResourceFromNodes rest path
    match element with
    | .invalid _ => tail
    | .fragment cs =>
      let r := getRoutesAndResourceFromNodes cs path
      ⟨r.customRoutesWithLayout ++ tail.customRoutesWithLayout,
       r.customRoutesWithoutLayout ++ tail.customRoutesWithoutLayout,
       r.resources ++ tail.resources,
       (r.components ++ [element]) ++ tail.components⟩
    | .category info cs =>
      let r := getRoutesAndResourceFromNodes cs (path ++ [info])
      ⟨r.customRoutesWithLayout ++ tail.customRoutesWithLayout,
       r.customRoutesWithoutLayout ++ tail.customRoutesWithoutLayout,
       r.resources ++ tail.resources,
       (r.components ++ [element]) ++ tail.components⟩
    | .customRoute props =>
      if props.noLayout then
        ⟨tail.customRoutesWithLayout,
         element :: tail.customRoutesWithoutLayout,
         tail.resources,
         element :: tail.components⟩
      else
        ⟨⟨path, element⟩ :: tail.customRoutesWithLayout,
         tail.customRoutesWithoutLayout,
         tail.resources,
         element :: tail.components⟩
    | .resource _ =>
      ⟨tail.customRoutesWithLayout,
       tail.customRoutesWithoutLayout,
       ⟨path, element⟩ :: tail.resources,
       element :: tail.components⟩
    | .other _ =>
      ⟨tail.customRoutesWithLayout,
       tail.customRoutesWithoutLayout,
       tail.resources,
       element :: tail.components⟩

/-- React useState across renders: the initializer argument is evaluated by
the caller on every render, but it is only stored and returned on the first
render (empty cell); afterwards the stored state is returned unchanged. -/
def useState {α : Type} (cell : Option α) (init : α) : α × Option α :=
  match cell with
  | none => (init, some init)
  | some s => (s, some s)

/-- Source lines 85-93: one render of useRoutesAndResourcesFromChildren.
The classifier runs on the current children, but the result is fed to a
useState cell, so only the first render value is ever returned. -/
def useRoutesAndResourcesFromChildren (cell : Option RoutesAndResources)
    (children : NodeList) : RoutesAndResources × Option RoutesAndResources :=
  useState cell (getRoutesAndResourceFromNodes children [])

/-- Source lines 37-55: one render of the outer hook.  It returns exactly the
four classified lists (lines 49-54); no status field is computed or returned,
although the doc comment at lines 24-35 promises one. -/
def useConfigureAdminRouterFromChildren (cell : Option RoutesAndResources)
    (children : NodeList) : RoutesAndResources × Option RoutesAndResources :=
  let res := useRoutesAndResourcesFromChildren cell children
  (⟨res.1.customRoutesWithLayout,
    res.1.customRoutesWithoutLayout,
    res.1.resources,
    res.1.components⟩, res.2)

/-- Source line 231: the status type.  It is declared but never constructed
or returned anywhere in the file. -/
inductive AdminRouterStatus where
  | loading
  | empty
  | ready
deriving DecidableEq

/-- Result shape actually produced by mergeRoutesAndResources: each bucket is
a heterogeneous JS array holding the spread entries of the previous list
(Sum.inl) and, as its last single element, the whole new list (Sum.inr).
The as-cast at source line 126 silences the type mismatch. -/
structure MergedRoutesAndResources where
  customRoutesWithLayout : List (PathedElement ⊕ List PathedElement)
  customRoutesWithoutLayout : List (ReactNode ⊕ List ReactNode)
  resources : List (PathedElement ⊕ List PathedElement)
  components : List (ReactNode ⊕ List ReactNode)
deriving DecidableEq

/-- Source lines 108-130: the merge spreads the previous bucket but pushes
the corresponding new bucket as one element (no spread on the second
operand), e.g. line 121: resources: [...previous.resources,
newRoutesAndResources.resources]. -/
def mergeRoutesAndResources (previous newRoutesAndResources : RoutesAndResources) :
    MergedRoutesAndResources :=
  ⟨previous.customRoutesWithLayout.map Sum.inl
     ++ [Sum.inr newRoutesAndResources.customRoutesWithLayout],
   previous.customRoutesWithoutLayout.map Sum.inl
     ++ [Sum.inr newRoutesAndResources.customRoutesWithoutLayout],
   previous.resources.map Sum.inl ++ [Sum.inr newRoutesAndResources.resources],
   previous.components.map Sum.inl ++ [Sum.inr newRoutesAndResources.components]⟩

/-- The merge as the specification describes it: for each of the four
buckets, element-wise append of the new list onto the previous one.  Written
from the words of the spec for comparison with mergeRoutesAndResources. -/
def mergeRoutesAndResourcesSpec (previous newRoutesAndResources : RoutesAndResources) :
    RoutesAndResources :=
  ⟨previous.customRoutesWithLayout ++ newRoutesAndResources.customRoutesWithLayout,
   previous.customRoutesWithoutLayout ++ newRoutesAndResources.customRoutesWithoutLayout,
   previous.resources ++ newRoutesAndResources.resources,
   previous.components ++ newRoutesAndResources.components⟩

/-- A menu record as built at source lines 67-72: key, label and icon read
from the element props.  Any of them may be absent (undefined) since the
store performs no validation. -/
structure MenuItem where
  key : Option String
  label : Option String
  icon : Option String
deriving DecidableEq

/-- A stored menu entry: the record together with the path it was registered
at. -/
structure MenuRecord where
  item : MenuItem
  path : List TushanCategoryPathInfo
deriving DecidableEq

/-- Modelled from the spec: the shared menu store file is not part of the
sources; per the design document it maps key to record (with the
registration path), add-menu upserts by key and remove-menu deletes by key. -/
abbrev MenuStore : Type := List MenuRecord

/-- Modelled from the spec: add-menu upserts, overwriting any prior record
with the same key. -/
def addMenu (store : MenuStore) (item : MenuItem) (path : List TushanCategoryPathInfo) :
    MenuStore :=
  (List.filter (fun r => !(r.item.key == item.key)) store) ++ [⟨item, path⟩]

/-- Modelled from the spec: remove-menu deletes every record with the given
key. -/
def removeMenu (store : MenuStore) (key : Option String) : MenuStore :=
  List.filter (fun r => !(r.item.key == key)) store

/-- Lookup of the record stored under a key. -/
def lookupMenu (store : MenuStore) (key : Option String) : Option MenuRecord :=
  List.find? (fun r => r.item.key == key) store

/-- JS read of element.props.name (source line 69): defined for CustomRoute
and Resource elements, undefined otherwise. -/
def ReactNode.propsName : ReactNode → Option String
  | .customRoute props => some props.name
  | .resource props => some props.name
  | _ => none

/-- JS read of element.props.label (source line 70). -/
def ReactNode.propsLabel : ReactNode → Option String
  | .customRoute props => props.label
  | .resource props => props.label
  | _ => none

/-- JS read of element.props.icon (source line 71). -/
def ReactNode.propsIcon : ReactNode → Option String
  | .customRoute props => props.icon
  | .resource props => props.icon
  | _ => none

/-- JS test element.props.noMenu === true (negated at source line 46):
true exactly for a CustomRoute whose noMenu prop is true; undefined props
compare unequal to true. -/
def ReactNode.propsNoMenuIsTrue : ReactNode → Bool
  | .customRoute props => props.noMenu
  | _ => false

/-- The menu record built from an element at source lines 68-72. -/
def menuItemOf (element : ReactNode) : MenuItem :=
  ⟨element.propsName, element.propsLabel, element.propsIcon⟩

/-- Source line 46: the inclusion predicate passed for the layout-wrapped
routes, (item) => item.element.props.noMenu !== true. -/
def noMenuFilterFn (item : PathedElement) : Bool :=
  !(item.element.propsNoMenuIsTrue)

/-- Source lines 63-75, the add phase of the useRegisterMenu effect: filter
the observed routes with filterFn (default () => true at line 62), then
addMenu each remaining route keyed by its element props at its path. -/
def registerMenus (routes : List PathedElement) (filterFn : PathedElement → Bool)
    (store : MenuStore) : MenuStore :=
  (routes.filter filterFn).foldl
    (fun s route => addMenu s (menuItemOf route.element) route.path) store

/-- JS read of route.props on a classified entry (source line 79).  The
entry type T of useRegisterMenu is a record with fields path and element
only, so the props field does not exist and the read yields undefined. -/
def PathedElement.propsRead : PathedElement → Option CustomRoutesProp :=
  fun _ => none

/-- Runtime error raised by reading a property off undefined. -/
inductive JsError where
  | typeError
deriving DecidableEq

/-- Source lines 77-81, the cleanup returned by the effect: for each entry of
the filtered list of the previous evaluation, removeMenu(route.props.name).
Because route.props is undefined (the entry only has path and element, see
PathedElement.propsRead), reading .name off it raises a TypeError and the
loop aborts at its first iteration. -/
def cleanupMenus (filteredRoutes : List PathedElement) (store : MenuStore) :
    Except JsError MenuStore :=
  match filteredRoutes with
  | [] => .ok store
  | route :: rest =>
    match route.propsRead with
    | none => .error .typeError
    | some props => cleanupMenus rest (removeMenu store (some props.name))

/-- Heap of JS arrays of path segments, for the frame property of the
classifier: a JS array is a mutable reference, modelled as an index into an
explicit store; writing in place would update an existing slot, while the
spread [...path, info] at source lines 178-181 allocates a fresh array. -/
structure PathHeap where
  arrays : List (List TushanCategoryPathInfo)
deriving DecidableEq

/-- Allocate a fresh array on the heap, returning its reference. -/
def PathHeap.alloc (h : PathHeap) (v : List TushanCategoryPathInfo) :
    Nat × PathHeap :=
  (h.arrays.length, ⟨h.arrays ++ [v]⟩)

/-- Dereference an array (an out-of-range reference reads as empty). -/
def PathHeap.readArr (h : PathHeap) (ref : Nat) : List TushanCategoryPathInfo :=
  h.arrays.getD ref []

/-- A classified entry holding the path by reference, as the JS object
{ path, element } holds a reference to the path array. -/
structure PathedElementRef where
  path : Nat
  element : ReactNode
deriving DecidableEq

/-- The four classified lists with paths held by reference. -/
structure RoutesAndResourcesRef where
  customRoutesWithLayout : List PathedElementRef
  customRoutesWithoutLayout : List ReactNode
  resources : List PathedElementRef
  components : List ReactNode
deriving DecidableEq

/-- Heap-explicit embedding of getRoutesAndResourceFromNodes: identical
traversal, but the path parameter is a reference to a heap array and the
Category case (source lines 178-181) reads the current path array and
allocates a fresh array extended by the new segment, exactly as the spread
[...path, currPathInfo] does; no existing array is ever written. -/
def getRoutesAndResourceFromNodesHeap :
    NodeList → Nat → PathHeap → RoutesAndResourcesRef × PathHeap
  | .nil, _, h => (⟨[], [], [], []⟩, h)
  | .cons element rest, path, h =>
    match element with
    | .invalid _ => getRoutesAndResourceFromNodesHeap rest path h
    | .fragment cs =>
      let rh := getRoutesAndResourceFromNodesHeap cs path h
      let th := getRoutesAndResourceFromNodesHeap rest path rh.2
      (⟨rh.1.customRoutesWithLayout ++ th.1.customRoutesWithLayout,
        rh.1.customRoutesWithoutLayout ++ th.1.customRoutesWithoutLayout,
        rh.1.resources ++ th.1.resources,
        (rh.1.components ++ [element]) ++ th.1.components⟩, th.2)
    | .category info cs =>
      let a := h.alloc (h.readArr path ++ [info])
      let rh := getRoutesAndResourceFromNodesHeap cs a.1 a.2
      let th := getRoutesAndResourceFromNodesHeap rest path rh.2
      (⟨rh.1.customRoutesWithLayout ++ th.1.customRoutesWithLayout,
        rh.1.customRoutesWithoutLayout ++ th.1.customRoutesWithoutLayout,
        rh.1.resources ++ th.1.resources,
        (rh.1.components ++ [element]) ++ th.1.components⟩, th.2)
    | .customRoute props =>
      let th := getRoutesAndResourceFromNodesHeap rest path h
      if props.noLayout then
        (⟨th.1.customRoutesWithLayout,
          element :: th.1.customRoutesWithoutLayout,
          th.1.resources,
          element :: th.1.components⟩, th.2)
      else
        (⟨⟨path, element⟩ :: th.1.customRoutesWithLayout,
          th.1.customRoutesWithoutLayout,
          th.1.resources,
          element :: th.1.components⟩, th.2)
    | .resource _ =>
      let th := getRoutesAndResourceFromNodesHeap rest path h
      (⟨th.1.customRoutesWithLayout,
        th.1.customRoutesWithoutLayout,
        ⟨path, element⟩ :: th.1.resources,
        element :: th.1.components⟩, th.2)
    | .other _ =>
      let th := getRoutesAndResourceFromNodesHeap rest path h
      (⟨th.1.customRoutesWithLayout,
        th.1.customRoutesWithoutLayout,
        th.1.resources,
        element :: th.1.components⟩, th.2)

/-- Number of times an element value occurs among the children visited by
the walk: invalid children are skipped, wrapper children are themselves
visited in addition to their descendants. -/
def visitCount (e : ReactNode) : NodeList → Nat
  | .nil => 0
  | .cons x rest =>
    (match x with
     | .invalid _ => 0
     | .fragment cs => visitCount e cs + (if x = e then 1 else 0)
     | .category _ cs => visitCount e cs + (if x = e then 1 else 0)
     | .customRoute _ => if x = e then 1 else 0
     | .resource _ => if x = e then 1 else 0
     | .other _ => if x = e then 1 else 0) + visitCount e rest

/-- Total number of occurrences of an element value across the three
classified lists (layout-wrapped routes, layout-free routes, resources). -/
def classifiedCount (rr : RoutesAndResources) (e : ReactNode) : Nat :=
  rr.customRoutesWithLayout.countP (fun r => r.element == e)
    + rr.customRoutesWithoutLayout.countP (fun x => x == e)
    + rr.resources.countP (fun r => r.element == e)

/-- Whether an element matches one of the three leaf marker types that the
classifier buckets (CustomRoute or Resource). -/
def isMarkerLeaf : ReactNode → Bool
  | .customRoute _ => true
  | .resource _ => true
  | _ => false

/-- Prepend a starting path to the recorded path of a classified entry. -/
def shiftEntry (p : List TushanCategoryPathInfo) (r : PathedElement) : PathedElement :=
  ⟨p ++ r.path, r.element⟩

/- ---------------------------------------------------------------------
   Theorems.  First, one-step equations of the classifier (all hold by
   definitional unfolding) and structural helper lemmas shared by the
   claim theorems.
   --------------------------------------------------------------------- -/

theorem classify_nil (p : List TushanCategoryPathInfo) :
    getRoutesAndResourceFromNodes .nil p = ⟨[], [], [], []⟩ := rfl

theorem classify_cons_invalid (i : Nat) (rest : NodeList) (p : List TushanCategoryPathInfo) :
    getRoutesAndResourceFromNodes (.cons (.invalid i) rest) p =
      getRoutesAndResourceFromNodes rest p := rfl

theorem classify_cons_fragment (cs rest : NodeList) (p : List TushanCategoryPathInfo) :
    getRoutesAndResourceFromNodes (.cons (.fragment cs) rest) p =
      ⟨(getRoutesAndResourceFromNodes cs p).customRoutesWithLayout
         ++ (getRoutesAndResourceFromNodes rest p).customRoutesWithLayout,
       (getRoutesAndResourceFromNodes cs p).customRoutesWithoutLayout
         ++ (getRoutesAndResourceFromNodes rest p).customRoutesWithoutLayout,
       (getRoutesAndResourceFromNodes cs p).resources
         ++ (getRoutesAndResourceFromNodes rest p).resources,
       ((getRoutesAndResourceFromNodes cs p).components ++ [.fragment cs])
         ++ (getRoutesAndResourceFromNodes rest p).components⟩ := rfl

theorem classify_cons_category (info : TushanCategoryPathInfo) (cs rest : NodeList)
    (p : List TushanCategoryPathInfo) :
    getRoutesAndResourceFromNodes (.cons (.category info cs) rest) p =
      ⟨(getRoutesAndResourceFromNodes cs (p ++ [info])).customRoutesWithLayout
         ++ (getRoutesAndResourceFromNodes rest p).customRoutesWithLayout,
       (getRoutesAndResourceFromNodes cs (p ++ [info])).customRoutesWithoutLayout
         ++ (getRoutesAndResourceFromNodes rest p).customRoutesWithoutLayout,
       (getRoutesAndResourceFromNodes cs (p ++ [info])).resources
         ++ (getRoutesAndResourceFromNodes rest p).resources,
       ((getRoutesAndResourceFromNodes cs (p ++ [info])).components ++ [.category info cs])
         ++ (getRoutesAndResourceFromNodes rest p).components⟩ := rfl

theorem classify_cons_customRoute (props : CustomRoutesProp) (rest : NodeList)
    (p : List TushanCategoryPathInfo) :
    getRoutesAndResourceFromNodes (.cons (.customRoute props) rest) p =
      if props.noLayout then
        ⟨(getRoutesAndResourceFromNodes rest p).customRoutesWithLayout,
         .customRoute props :: (getRoutesAndResourceFromNodes rest p).customRoutesWithoutLayout,
         (getRoutesAndResourceFromNodes rest p).resources,
         .customRoute props :: (getRoutesAndResourceFromNodes rest p).components⟩
      else
        ⟨⟨p, .customRoute props⟩ :: (getRoutesAndResourceFromNodes rest p).customRoutesWithLayout,
         (getRoutesAndResourceFromNodes rest p).customRoutesWithoutLayout,
         (getRoutesAndResourceFromNodes rest p).resources,
         .customRoute props :: (getRoutesAndResourceFromNodes rest p).components⟩ := rfl

theorem classify_cons_resource (props : ResourceProps) (rest : NodeList)
    (p : List TushanCategoryPathInfo) :
    getRoutesAndResourceFromNodes (.cons (.resource props) rest) p =
      ⟨(getRoutesAndResourceFromNodes rest p).customRoutesWithLayout,
       (getRoutesAndResourceFromNodes rest p).customRoutesWithoutLayout,
       ⟨p, .resource props⟩ :: (getRoutesAndResourceFromNodes rest p).resources,
       .resource props :: (getRoutesAndResourceFromNodes rest p).components⟩ := rfl

theorem classify_cons_other (i : Nat) (rest : NodeList) (p : List TushanCategoryPathInfo) :
    getRoutesAndResourceFromNodes (.cons (.other i) rest) p =
      ⟨(getRoutesAndResourceFromNodes rest p).customRoutesWithLayout,
       (getRoutesAndResourceFromNodes rest p).customRoutesWithoutLayout,
       (getRoutesAndResourceFromNodes rest p).resources,
       .other i :: (getRoutesAndResourceFromNodes rest p).components⟩ := rfl

/-- Relocation lemma: classifying under a longer starting path p ++ q yields
the same four lists as classifying under q, except that every recorded path
is prefixed by p.  In particular the starting path is only ever read, never
inspected or altered by the walk. -/
theorem classify_path_shift (cs : NodeList) (q : List TushanCategoryPathInfo) :
    ∀ p : List TushanCategoryPathInfo,
      getRoutesAndResourceFromNodes cs (p ++ q) =
        ⟨((getRoutesAndResourceFromNodes cs q).customRoutesWithLayout).map (shiftEntry p),
         (getRoutesAndResourceFromNodes cs q).customRoutesWithoutLayout,
         ((getRoutesAndResourceFromNodes cs q).resources).map (shiftEntry p),
         (getRoutesAndResourceFromNodes cs q).components⟩ := by
  induction cs, q using getRoutesAndResourceFromNodes.induct with
  | case1 x =>
    intro p
    simp [classify_nil]
  | case2 rest path i ih =>
    intro p
    simpa only [classify_cons_invalid] using ih p
  | case3 rest path cs ih_rest ih_cs =>
    intro p
    simp [classify_cons_fragment, ih_rest p, ih_cs p]
  | case4 rest path info cs ih_rest ih_cs =>
    intro p
    rw [classify_cons_category, classify_cons_category, List.append_assoc]
    simp [ih_rest p, ih_cs p]
  | case5 rest path props h ih =>
    intro p
    rw [classify_cons_customRoute, classify_cons_customRoute]
    simp [h, ih p]
  | case6 rest path props h ih =>
    intro p
    rw [classify_cons_customRoute, classify_cons_customRoute]
    simp [h, ih p, shiftEntry]
  | case7 rest path props ih =>
    intro p
    simp [classify_cons_resource, ih p, shiftEntry]
  | case8 rest path i ih =>
    intro p
    simp [classify_cons_other, ih p]

/-- Every layout-wrapped entry was pushed at source line 198: its element is
a CustomRoute whose noLayout flag is not set. -/
theorem mem_customRoutesWithLayout (cs : NodeList) (p : List TushanCategoryPathInfo) :
    ∀ r ∈ (getRoutesAndResourceFromNodes cs p).customRoutesWithLayout,
      ∃ props, r.element = ReactNode.customRoute props ∧ props.noLayout = false := by
  induction cs, p using getRoutesAndResourceFromNodes.induct with
  | case1 x =>
    intro r hr
    simp [classify_nil] at hr
  | case2 rest path i ih =>
    intro r hr
    rw [classify_cons_invalid] at hr
    exact ih r hr
  | case3 rest path cs ih_rest ih_cs =>
    intro r hr
    rw [classify_cons_fragment] at hr
    rcases List.mem_append.1 hr with h | h
    · exact ih_cs r h
    · exact ih_rest r h
  | case4 rest path info cs ih_rest ih_cs =>
    intro r hr
    rw [classify_cons_category] at hr
    rcases List.mem_append.1 hr with h | h
    · exact ih_cs r h
    · exact ih_rest r h
  | case5 rest path props h ih =>
    intro r hr
    rw [classify_cons_customRoute] at hr
    simp only [h, if_true] at hr
    exact ih r hr
  | case6 rest path props h ih =>
    intro r hr
    rw [classify_cons_customRoute] at hr
    simp only [h, if_false, Bool.false_eq_true] at hr
    rcases List.mem_cons.1 hr with h1 | h1
    · exact ⟨props, by simp [h1], by simpa using h⟩
    · exact ih r h1
  | case7 rest path props ih =>
    intro r hr
    rw [classify_cons_resource] at hr
    exact ih r hr
  | case8 rest path i ih =>
    intro r hr
    rw [classify_cons_other] at hr
    exact ih r hr

/-- Every layout-free entry was pushed at source line 196: it is itself a
CustomRoute element whose noLayout flag is set. -/
theorem mem_customRoutesWithoutLayout (cs : NodeList) (p : List TushanCategoryPathInfo) :
    ∀ x ∈ (getRoutesAndResourceFromNodes cs p).customRoutesWithoutLayout,
      ∃ props, x = ReactNode.customRoute props ∧ props.noLayout = true := by
  induction cs, p using getRoutesAndResourceFromNodes.induct with
  | case1 x =>
    intro r hr
    simp [classify_nil] at hr
  | case2 rest path i ih =>
    intro r hr
    rw [classify_cons_invalid] at hr
    exact ih r hr
  | case3 rest path cs ih_rest ih_cs =>
    intro r hr
    rw [classify_cons_fragment] at hr
    rcases List.mem_append.1 hr with h | h
    · exact ih_cs r h
    · exact ih_rest r h
  | case4 rest path info cs ih_rest ih_cs =>
    intro r hr
    rw [classify_cons_category] at hr
    rcases List.mem_append.1 hr with h | h
    · exact ih_cs r h
    · exact ih_rest r h
  | case5 rest path props h ih =>
    intro r hr
    rw [classify_cons_customRoute] at hr
    simp only [h, if_true] at hr
    rcases List.mem_cons.1 hr with h1 | h1
    · exact ⟨props, h1, h⟩
    · exact ih r h1
  | case6 rest path props h ih =>
    intro r hr
    rw [classify_cons_customRoute] at hr
    simp only [h, if_false, Bool.false_eq_true] at hr
    exact ih r hr
  | case7 rest path props ih =>
    intro r hr
    rw [classify_cons_resource] at hr
    exact ih r hr
  | case8 rest path i ih =>
    intro r hr
    rw [classify_cons_other] at hr
    exact ih r hr

theorem visitCount_nil (e : ReactNode) : visitCount e .nil = 0 := rfl

theorem visitCount_cons_invalid (e : ReactNode) (i : Nat) (rest : NodeList) :
    visitCount e (.cons (.invalid i) rest) = visitCount e rest := by
  simp [visitCount]

theorem visitCount_cons_fragment (e : ReactNode) (cs rest : NodeList) :
    visitCount e (.cons (.fragment cs) rest) =
      (visitCount e cs + (if ReactNode.fragment cs = e then 1 else 0)) + visitCount e rest := rfl

theorem visitCount_cons_category (e : ReactNode) (info : TushanCategoryPathInfo)
    (cs rest : NodeList) :
    visitCount e (.cons (.category info cs) rest) =
      (visitCount e cs + (if ReactNode.category info cs = e then 1 else 0)) + visitCount e rest := rfl

theorem visitCount_cons_customRoute (e : ReactNode) (props : CustomRoutesProp) (rest : NodeList) :
    visitCount e (.cons (.customRoute props) rest) =
      (if ReactNode.customRoute props = e then 1 else 0) + visitCount e rest := rfl

theorem visitCount_cons_resource (e : ReactNode) (props : ResourceProps) (rest : NodeList) :
    visitCount e (.cons (.resource props) rest) =
      (if ReactNode.resource props = e then 1 else 0) + visitCount e rest := rfl

theorem visitCount_cons_other (e : ReactNode) (i : Nat) (rest : NodeList) :
    visitCount e (.cons (.other i) rest) =
      (if ReactNode.other i = e then 1 else 0) + visitCount e rest := rfl

theorem isMarkerLeaf_ne_fragment (e : ReactNode) (cs : NodeList)
    (h : isMarkerLeaf e = true) : ReactNode.fragment cs ≠ e := by
  cases e <;> simp [isMarkerLeaf] at h ⊢

theorem isMarkerLeaf_ne_category (e : ReactNode) (info : TushanCategoryPathInfo) (cs : NodeList)
    (h : isMarkerLeaf e = true) : ReactNode.category info cs ≠ e := by
  cases e <;> simp [isMarkerLeaf] at h ⊢

theorem isMarkerLeaf_ne_other (e : ReactNode) (i : Nat)
    (h : isMarkerLeaf e = true) : ReactNode.other i ≠ e := by
  cases e <;> simp [isMarkerLeaf] at h ⊢

/-- The passthrough list counts every visited valid element exactly as often
as the walk visits it. -/
theorem components_count (cs : NodeList) (p : List TushanCategoryPathInfo) (e : ReactNode) :
    (getRoutesAndResourceFromNodes cs p).components.countP (fun x => x == e)
      = visitCount e cs := by
  induction cs, p using getRoutesAndResourceFromNodes.induct with
  | case1 x =>
    simp [classify_nil, visitCount_nil]
  | case2 rest path i ih =>
    rw [classify_cons_invalid, visitCount_cons_invalid]
    exact ih
  | case3 rest path cs ih_rest ih_cs =>
    rw [classify_cons_fragment, visitCount_cons_fragment]
    simp [List.countP_append, List.countP_cons, ih_rest, ih_cs]
    omega
  | case4 rest path info cs ih_rest ih_cs =>
    rw [classify_cons_category, visitCount_cons_category]
    simp [List.countP_append, List.countP_cons, ih_rest, ih_cs]
    omega
  | case5 rest path props h ih =>
    rw [classify_cons_customRoute, visitCount_cons_customRoute]
    simp [h, List.countP_cons, ih]
    omega
  | case6 rest path props h ih =>
    rw [classify_cons_customRoute, visitCount_cons_customRoute]
    simp [h, List.countP_cons, ih, Bool.false_eq_true]
    omega
  | case7 rest path props ih =>
    rw [classify_cons_resource, visitCount_cons_resource]
    simp [List.countP_cons, ih]
    omega
  | case8 rest path i ih =>
    rw [classify_cons_other, visitCount_cons_other]
    simp [List.countP_cons, ih]
    omega

/-- Across the three classified lists together, a marker leaf value occurs
once per visit and any other element value occurs not at all. -/
theorem classified_count (cs : NodeList) (p : List TushanCategoryPathInfo) (e : ReactNode) :
    classifiedCount (getRoutesAndResourceFromNodes cs p) e
      = if isMarkerLeaf e then visitCount e cs else 0 := by
  induction cs, p using getRoutesAndResourceFromNodes.induct with
  | case1 x =>
    simp [classify_nil, classifiedCount, visitCount_nil]
  | case2 rest path i ih =>
    rw [classify_cons_invalid, visitCount_cons_invalid]
    exact ih
  | case3 rest path cs ih_rest ih_cs =>
    rw [classify_cons_fragment, visitCount_cons_fragment]
    simp only [classifiedCount, List.countP_append] at ih_rest ih_cs ⊢
    cases hm : isMarkerLeaf e with
    | true =>
      simp only [hm, if_true] at ih_rest ih_cs ⊢
      rw [if_neg (isMarkerLeaf_ne_fragment e cs hm)]
      omega
    | false =>
      simp [hm] at ih_rest ih_cs ⊢
      tauto
  | case4 rest path info cs ih_rest ih_cs =>
    rw [classify_cons_category, visitCount_cons_category]
    simp only [classifiedCount, List.countP_append] at ih_rest ih_cs ⊢
    cases hm : isMarkerLeaf e with
    | true =>
      simp only [hm, if_true] at ih_rest ih_cs ⊢
      rw [if_neg (isMarkerLeaf_ne_category e info cs hm)]
      omega
    | false =>
      simp [hm] at ih_rest ih_cs ⊢
      tauto
  | case5 rest path props h ih =>
    rw [classify_cons_customRoute, visitCount_cons_customRoute]
    simp only [h, if_true]
    simp only [classifiedCount, List.countP_cons] at ih ⊢
    by_cases he : ReactNode.customRoute props = e
    · subst he
      simp [isMarkerLeaf] at ih ⊢
      omega
    · cases hm : isMarkerLeaf e with
      | true =>
        simp only [hm, if_true] at ih ⊢
        simp [he]
        omega
      | false =>
        simp [hm, he] at ih ⊢
        tauto
  | case6 rest path props h ih =>
    rw [classify_cons_customRoute, visitCount_cons_customRoute]
    simp only [h, if_false, Bool.false_eq_true]
    simp only [classifiedCount, List.countP_cons] at ih ⊢
    by_cases he : ReactNode.customRoute props = e
    · subst he
      simp [isMarkerLeaf] at ih ⊢
      omega
    · cases hm : isMarkerLeaf e with
      | true =>
        simp only [hm, if_true] at ih ⊢
        simp [he]
        omega
      | false =>
        simp [hm, he] at ih ⊢
        tauto
  | case7 rest path props ih =>
    rw [classify_cons_resource, visitCount_cons_resource]
    simp only [classifiedCount, List.countP_cons] at ih ⊢
    by_cases he : ReactNode.resource props = e
    · subst he
      simp [isMarkerLeaf] at ih ⊢
      omega
    · cases hm : isMarkerLeaf e with
      | true =>
        simp only [hm, if_true] at ih ⊢
        simp [he]
        omega
      | false =>
        simp [hm, he] at ih ⊢
        tauto
  | case8 rest path i ih =>
    rw [classify_cons_other, visitCount_cons_other]
    simp only [classifiedCount] at ih ⊢
    cases hm : isMarkerLeaf e with
    | true =>
      simp only [hm, if_true] at ih ⊢
      rw [if_neg (isMarkerLeaf_ne_other e i hm)]
      omega
    | false =>
      simp [hm] at ih ⊢
      tauto

/-- The heap only grows during classification: the final heap extends the
initial one by the freshly allocated category arrays, so every array that
existed before the call is left untouched at its slot. -/
theorem heap_classify_extends (cs : NodeList) (ref : Nat) (h : PathHeap) :
    ∃ ext, ((getRoutesAndResourceFromNodesHeap cs ref h).2).arrays = h.arrays ++ ext := by
  induction cs, ref, h using getRoutesAndResourceFromNodesHeap.induct with
  | case1 x h =>
    exact ⟨[], by simp [getRoutesAndResourceFromNodesHeap]⟩
  | case2 rest path h i ih =>
    obtain ⟨e1, he1⟩ := ih
    exact ⟨e1, by simpa [getRoutesAndResourceFromNodesHeap] using he1⟩
  | case3 rest path h cs rh ih_cs ih_rest =>
    have hrh : rh = getRoutesAndResourceFromNodesHeap cs path h := rfl
    rw [hrh] at ih_rest
    obtain ⟨e1, he1⟩ := ih_cs
    obtain ⟨e2, he2⟩ := ih_rest
    refine ⟨e1 ++ e2, ?_⟩
    simp only [getRoutesAndResourceFromNodesHeap]
    rw [he2, he1, List.append_assoc]
  | case4 rest path h info cs a rh ih_cs ih_rest =>
    have ha : a = h.alloc (h.readArr path ++ [info]) := rfl
    have hrh : rh = getRoutesAndResourceFromNodesHeap cs a.1 a.2 := rfl
    rw [ha] at ih_cs
    rw [hrh, ha] at ih_rest
    obtain ⟨e1, he1⟩ := ih_cs
    obtain ⟨e2, he2⟩ := ih_rest
    refine ⟨(h.readArr path ++ [info]) :: (e1 ++ e2), ?_⟩
    simp only [getRoutesAndResourceFromNodesHeap]
    rw [he2, he1]
    simp [PathHeap.alloc, List.append_assoc]
  | case5 rest path h props hp ih =>
    obtain ⟨e1, he1⟩ := ih
    refine ⟨e1, ?_⟩
    simp only [getRoutesAndResourceFromNodesHeap]
    simpa [hp] using he1
  | case6 rest path h props hp ih =>
    obtain ⟨e1, he1⟩ := ih
    refine ⟨e1, ?_⟩
    simp only [getRoutesAndResourceFromNodesHeap]
    simpa [hp] using he1
  | case7 rest path h props ih =>
    obtain ⟨e1, he1⟩ := ih
    exact ⟨e1, by simpa [getRoutesAndResourceFromNodesHeap] using he1⟩
  | case8 rest path h i ih =>
    obtain ⟨e1, he1⟩ := ih
    exact ⟨e1, by simpa [getRoutesAndResourceFromNodesHeap] using he1⟩

/-- Reading a slot that existed before an extension yields the old value. -/
theorem readArr_of_extends (h h2 : PathHeap) (ext : List (List TushanCategoryPathInfo))
    (he : h2.arrays = h.arrays ++ ext) (ref : Nat) (hlt : ref < h.arrays.length) :
    h2.readArr ref = h.readArr ref := by
  simp only [PathHeap.readArr, he]
  exact List.getD_append _ _ _ _ hlt

/-- An extension never shrinks the heap. -/
theorem length_of_extends (h h2 : PathHeap) (ext : List (List TushanCategoryPathInfo))
    (he : h2.arrays = h.arrays ++ ext) : h.arrays.length ≤ h2.arrays.length := by
  simp [he]

theorem heapClassify_nil (ref : Nat) (h : PathHeap) :
    getRoutesAndResourceFromNodesHeap .nil ref h = (⟨[], [], [], []⟩, h) := rfl

theorem heapClassify_cons_invalid (i : Nat) (rest : NodeList) (ref : Nat) (h : PathHeap) :
    getRoutesAndResourceFromNodesHeap (.cons (.invalid i) rest) ref h =
      getRoutesAndResourceFromNodesHeap rest ref h := rfl

theorem heapClassify_cons_fragment (cs rest : NodeList) (ref : Nat) (h : PathHeap) :
    getRoutesAndResourceFromNodesHeap (.cons (.fragment cs) rest) ref h =
      (⟨(getRoutesAndResourceFromNodesHeap cs ref h).1.customRoutesWithLayout
          ++ (getRoutesAndResourceFromNodesHeap rest ref
                (getRoutesAndResourceFromNodesHeap cs ref h).2).1.customRoutesWithLayout,
        (getRoutesAndResourceFromNodesHeap cs ref h).1.customRoutesWithoutLayout
          ++ (getRoutesAndResourceFromNodesHeap rest ref
                (getRoutesAndResourceFromNodesHeap cs ref h).2).1.customRoutesWithoutLayout,
        (getRoutesAndResourceFromNodesHeap cs ref h).1.resources
          ++ (getRoutesAndResourceFromNodesHeap rest ref
                (getRoutesAndResourceFromNodesHeap cs ref h).2).1.resources,
        ((getRoutesAndResourceFromNodesHeap cs ref h).1.components ++ [.fragment cs])
          ++ (getRoutesAndResourceFromNodesHeap rest ref
                (getRoutesAndResourceFromNodesHeap cs ref h).2).1.components⟩,
       (getRoutesAndResourceFromNodesHeap rest ref
          (getRoutesAndResourceFromNodesHeap cs ref h).2).2) := rfl

theorem heapClassify_cons_category (info : TushanCategoryPathInfo) (cs rest : NodeList)
    (ref : Nat) (h : PathHeap) :
    getRoutesAndResourceFromNodesHeap (.cons (.category info cs) rest) ref h =
      (⟨(getRoutesAndResourceFromNodesHeap cs (h.alloc (h.readArr ref ++ [info])).1
            (h.alloc (h.readArr ref ++ [info])).2).1.customRoutesWithLayout
          ++ (getRoutesAndResourceFromNodesHeap rest ref
                (getRoutesAndResourceFromNodesHeap cs (h.alloc (h.readArr ref ++ [info])).1
                  (h.alloc (h.readArr ref ++ [info])).2).2).1.customRoutesWithLayout,
        (getRoutesAndResourceFromNodesHeap cs (h.alloc (h.readArr ref ++ [info])).1
            (h.alloc (h.readArr ref ++ [info])).2).1.customRoutesWithoutLayout
          ++ (getRoutesAndResourceFromNodesHeap rest ref
                (getRoutesAndResourceFromNodesHeap cs (h.alloc (h.readArr ref ++ [info])).1
                  (h.alloc (h.readArr ref ++ [info])).2).2).1.customRoutesWithoutLayout,
        (getRoutesAndResourceFromNodesHeap cs (h.alloc (h.readArr ref ++ [info])).1
            (h.alloc (h.readArr ref ++ [info])).2).1.resources
          ++ (getRoutesAndResourceFromNodesHeap rest ref
                (getRoutesAndResourceFromNodesHeap cs (h.alloc (h.readArr ref ++ [info])).1
                  (h.alloc (h.readArr ref ++ [info])).2).2).1.resources,
        ((getRoutesAndResourceFromNodesHeap cs (h.alloc (h.readArr ref ++ [info])).1
            (h.alloc (h.readArr ref ++ [info])).2).1.components ++ [.category info cs])
          ++ (getRoutesAndResourceFromNodesHeap rest ref
                (getRoutesAndResourceFromNodesHeap cs (h.alloc (h.readArr ref ++ [info])).1
                  (h.alloc (h.readArr ref ++ [info])).2).2).1.components⟩,
       (getRoutesAndResourceFromNodesHeap rest ref
          (getRoutesAndResourceFromNodesHeap cs (h.alloc (h.readArr ref ++ [info])).1
            (h.alloc (h.readArr ref ++ [info])).2).2).2) := rfl

theorem heapClassify_cons_customRoute (props : CustomRoutesProp) (rest : NodeList)
    (ref : Nat) (h : PathHeap) :
    getRoutesAndResourceFromNodesHeap (.cons (.customRoute props) rest) ref h =
      (if props.noLayout then
        (⟨(getRoutesAndResourceFromNodesHeap rest ref h).1.customRoutesWithLayout,
          .customRoute props ::
            (getRoutesAndResourceFromNodesHeap rest ref h).1.customRoutesWithoutLayout,
          (getRoutesAndResourceFromNodesHeap rest ref h).1.resources,
          .customRoute props :: (getRoutesAndResourceFromNodesHeap rest ref h).1.components⟩,
         (getRoutesAndResourceFromNodesHeap rest ref h).2)
      else
        (⟨⟨ref, .customRoute props⟩ ::
            (getRoutesAndResourceFromNodesHeap rest ref h).1.customRoutesWithLayout,
          (getRoutesAndResourceFromNodesHeap rest ref h).1.customRoutesWithoutLayout,
          (getRoutesAndResourceFromNodesHeap rest ref h).1.resources,
          .customRoute props :: (getRoutesAndResourceFromNodesHeap rest ref h).1.components⟩,
         (getRoutesAndResourceFromNodesHeap rest ref h).2)) := rfl

theorem heapClassify_cons_resource (props : ResourceProps) (rest : NodeList)
    (ref : Nat) (h : PathHeap) :
    getRoutesAndResourceFromNodesHeap (.cons (.resource props) rest) ref h =
      (⟨(getRoutesAndResourceFromNodesHeap rest ref h).1.customRoutesWithLayout,
        (getRoutesAndResourceFromNodesHeap rest ref h).1.customRoutesWithoutLayout,
        ⟨ref, .resource props⟩ :: (getRoutesAndResourceFromNodesHeap rest ref h).1.resources,
        .resource props :: (getRoutesAndResourceFromNodesHeap rest ref h).1.components⟩,
       (getRoutesAndResourceFromNodesHeap rest ref h).2) := rfl

theorem heapClassify_cons_other (i : Nat) (rest : NodeList) (ref : Nat) (h : PathHeap) :
    getRoutesAndResourceFromNodesHeap (.cons (.other i) rest) ref h =
      (⟨(getRoutesAndResourceFromNodesHeap rest ref h).1.customRoutesWithLayout,
        (getRoutesAndResourceFromNodesHeap rest ref h).1.customRoutesWithoutLayout,
        (getRoutesAndResourceFromNodesHeap rest ref h).1.resources,
        .other i :: (getRoutesAndResourceFromNodesHeap rest ref h).1.components⟩,
       (getRoutesAndResourceFromNodesHeap rest ref h).2) := rfl

/-- Reading the slot just allocated returns the allocated value. -/
theorem readArr_alloc (h : PathHeap) (v : List TushanCategoryPathInfo) :
    ((h.alloc v).2).readArr (h.alloc v).1 = v := by
  simp [PathHeap.alloc, PathHeap.readArr, List.getD_append_right]

/-- The freshly allocated reference is valid in the extended heap. -/
theorem alloc_ref_lt (h : PathHeap) (v : List TushanCategoryPathInfo) :
    (h.alloc v).1 < ((h.alloc v).2).arrays.length := by
  simp [PathHeap.alloc]

/-- The heap-explicit classifier computes the same classification as the
value-level one: the layout-free and passthrough lists coincide,
dereferencing the recorded path references in the final heap recovers
exactly the value-level entries, and every recorded reference is valid in
the final heap. -/
theorem heap_classify_agrees :
    ∀ (cs : NodeList) (ref : Nat) (h : PathHeap), ref < h.arrays.length →
      ((getRoutesAndResourceFromNodesHeap cs ref h).1.customRoutesWithoutLayout
          = (getRoutesAndResourceFromNodes cs (h.readArr ref)).customRoutesWithoutLayout)
      ∧ ((getRoutesAndResourceFromNodesHeap cs ref h).1.components
          = (getRoutesAndResourceFromNodes cs (h.readArr ref)).components)
      ∧ (((getRoutesAndResourceFromNodesHeap cs ref h).1.customRoutesWithLayout).map
            (fun r => (⟨((getRoutesAndResourceFromNodesHeap cs ref h).2).readArr r.path,
                        r.element⟩ : PathedElement))
          = (getRoutesAndResourceFromNodes cs (h.readArr ref)).customRoutesWithLayout)
      ∧ (((getRoutesAndResourceFromNodesHeap cs ref h).1.resources).map
            (fun r => (⟨((getRoutesAndResourceFromNodesHeap cs ref h).2).readArr r.path,
                        r.element⟩ : PathedElement))
          = (getRoutesAndResourceFromNodes cs (h.readArr ref)).resources)
      ∧ (∀ r ∈ (getRoutesAndResourceFromNodesHeap cs ref h).1.customRoutesWithLayout,
            r.path < ((getRoutesAndResourceFromNodesHeap cs ref h).2).arrays.length)
      ∧ (∀ r ∈ (getRoutesAndResourceFromNodesHeap cs ref h).1.resources,
            r.path < ((getRoutesAndResourceFromNodesHeap cs ref h).2).arrays.length) := by
  intro cs ref h
  induction cs, ref, h using getRoutesAndResourceFromNodesHeap.induct with
  | case1 x h =>
    intro hv
    simp [heapClassify_nil, classify_nil]
  | case2 rest path h i ih =>
    intro hv
    rw [heapClassify_cons_invalid, classify_cons_invalid]
    exact ih hv
  | case3 rest path h cs rh ih_cs ih_rest =>
    intro hv
    have hrh : rh = getRoutesAndResourceFromNodesHeap cs path h := rfl
    rw [hrh] at ih_rest
    obtain ⟨cwo, ccomp, cwl, cres, cvwl, cvres⟩ := ih_cs hv
    obtain ⟨e1, he1⟩ := heap_classify_extends cs path h
    have hv1 : path < (getRoutesAndResourceFromNodesHeap cs path h).2.arrays.length :=
      Nat.lt_of_lt_of_le hv (length_of_extends _ _ _ he1)
    have hread1 : ((getRoutesAndResourceFromNodesHeap cs path h).2).readArr path
        = h.readArr path := readArr_of_extends _ _ _ he1 _ hv
    obtain ⟨rwo, rcomp, rwl, rres, rvwl, rvres⟩ := ih_rest hv1
    rw [hread1] at rwo rcomp rwl rres
    obtain ⟨e2, he2⟩ :=
      heap_classify_extends rest path (getRoutesAndResourceFromNodesHeap cs path h).2
    have hlen2 := length_of_extends _ _ _ he2
    simp only [heapClassify_cons_fragment, classify_cons_fragment, List.map_append,
      List.mem_append]
    refine ⟨by rw [cwo, rwo], by rw [ccomp, rcomp], ?_, ?_, ?_, ?_⟩
    · rw [rwl, ← cwl]
      congr 1
      exact List.map_congr_left (fun r hr =>
        by rw [readArr_of_extends _ _ _ he2 _ (cvwl r hr)])
    · rw [rres, ← cres]
      congr 1
      exact List.map_congr_left (fun r hr =>
        by rw [readArr_of_extends _ _ _ he2 _ (cvres r hr)])
    · intro r hr
      rcases hr with hr | hr
      · exact Nat.lt_of_lt_of_le (cvwl r hr) hlen2
      · exact rvwl r hr
    · intro r hr
      rcases hr with hr | hr
      · exact Nat.lt_of_lt_of_le (cvres r hr) hlen2
      · exact rvres r hr
  | case4 rest path h info cs a rh ih_cs ih_rest =>
    intro hv
    have ha : a = h.alloc (h.readArr path ++ [info]) := rfl
    have hrh : rh = getRoutesAndResourceFromNodesHeap cs a.1 a.2 := rfl
    rw [ha] at ih_cs
    rw [hrh, ha] at ih_rest
    obtain ⟨cwo, ccomp, cwl, cres, cvwl, cvres⟩ :=
      ih_cs (alloc_ref_lt h (h.readArr path ++ [info]))
    rw [readArr_alloc] at cwo ccomp cwl cres
    obtain ⟨e1, he1⟩ := heap_classify_extends cs (h.alloc (h.readArr path ++ [info])).1
      (h.alloc (h.readArr path ++ [info])).2
    have he1' : (getRoutesAndResourceFromNodesHeap cs (h.alloc (h.readArr path ++ [info])).1
        (h.alloc (h.readArr path ++ [info])).2).2.arrays
        = h.arrays ++ ((h.readArr path ++ [info]) :: e1) := by
      rw [he1]
      simp [PathHeap.alloc]
    have hv1 : path < (getRoutesAndResourceFromNodesHeap cs
        (h.alloc (h.readArr path ++ [info])).1 (h.alloc (h.readArr path ++ [info])).2).2.arrays.length :=
      Nat.lt_of_lt_of_le hv (length_of_extends _ _ _ he1')
    have hread1 : ((getRoutesAndResourceFromNodesHeap cs (h.alloc (h.readArr path ++ [info])).1
        (h.alloc (h.readArr path ++ [info])).2).2).readArr path
        = h.readArr path := readArr_of_extends _ _ _ he1' _ hv
    obtain ⟨rwo, rcomp, rwl, rres, rvwl, rvres⟩ := ih_rest hv1
    rw [hread1] at rwo rcomp rwl rres
    obtain ⟨e2, he2⟩ := heap_classify_extends rest path
      (getRoutesAndResourceFromNodesHeap cs (h.alloc (h.readArr path ++ [info])).1
        (h.alloc (h.readArr path ++ [info])).2).2
    have hlen2 := length_of_extends _ _ _ he2
    simp only [heapClassify_cons_category, classify_cons_category, List.map_append,
      List.mem_append]
    refine ⟨by rw [cwo, rwo], by rw [ccomp, rcomp], ?_, ?_, ?_, ?_⟩
    · rw [rwl, ← cwl]
      congr 1
      exact List.map_congr_left (fun r hr =>
        by rw [readArr_of_extends _ _ _ he2 _ (cvwl r hr)])
    · rw [rres, ← cres]
      congr 1
      exact List.map_congr_left (fun r hr =>
        by rw [readArr_of_extends _ _ _ he2 _ (cvres r hr)])
    · intro r hr
      rcases hr with hr | hr
      · exact Nat.lt_of_lt_of_le (cvwl r hr) hlen2
      · exact rvwl r hr
    · intro r hr
      rcases hr with hr | hr
      · exact Nat.lt_of_lt_of_le (cvres r hr) hlen2
      · exact rvres r hr
  | case5 rest path h props hp ih =>
    intro hv
    obtain ⟨rwo, rcomp, rwl, rres, rvwl, rvres⟩ := ih hv
    simp only [heapClassify_cons_customRoute, classify_cons_customRoute, hp, if_true]
    exact ⟨by rw [rwo], by rw [rcomp], by rw [rwl], by rw [rres], rvwl, rvres⟩
  | case6 rest path h props hp ih =>
    intro hv
    obtain ⟨rwo, rcomp, rwl, rres, rvwl, rvres⟩ := ih hv
    obtain ⟨e2, he2⟩ := heap_classify_extends rest path h
    have hlen2 := length_of_extends _ _ _ he2
    have hstable : ((getRoutesAndResourceFromNodesHeap rest path h).2).readArr path
        = h.readArr path := readArr_of_extends _ _ _ he2 _ hv
    simp only [heapClassify_cons_customRoute, classify_cons_customRoute, hp, if_false,
      Bool.false_eq_true, List.map_cons, List.mem_cons]
    refine ⟨by rw [rwo], by rw [rcomp], ?_, by rw [rres], ?_, ?_⟩
    · rw [rwl, hstable]
    · intro r hr
      rcases hr with hr | hr
      · rw [hr]
        exact Nat.lt_of_lt_of_le hv hlen2
      · exact rvwl r hr
    · exact rvres
  | case7 rest path h props ih =>
    intro hv
    obtain ⟨rwo, rcomp, rwl, rres, rvwl, rvres⟩ := ih hv
    obtain ⟨e2, he2⟩ := heap_classify_extends rest path h
    have hlen2 := length_of_extends _ _ _ he2
    have hstable : ((getRoutesAndResourceFromNodesHeap rest path h).2).readArr path
        = h.readArr path := readArr_of_extends _ _ _ he2 _ hv
    simp only [heapClassify_cons_resource, classify_cons_resource, List.map_cons,
      List.mem_cons]
    refine ⟨by rw [rwo], by rw [rcomp], by rw [rwl], ?_, rvwl, ?_⟩
    · rw [rres, hstable]
    · intro r hr
      rcases hr with hr | hr
      · rw [hr]
        exact Nat.lt_of_lt_of_le hv hlen2
      · exact rvres r hr
  | case8 rest path h i ih =>
    intro hv
    obtain ⟨rwo, rcomp, rwl, rres, rvwl, rvres⟩ := ih hv
    simp only [heapClassify_cons_other, classify_cons_other]
    exact ⟨by rw [rwo], by rw [rcomp], by rw [rwl], by rw [rres], rvwl, rvres⟩

/-- Filtering with a predicate implied by the search predicate does not
change the result of find?. -/
theorem find?_filter_of_imp {α : Type} (l : List α) (p q : α → Bool)
    (hpq : ∀ x, p x = true → q x = true) :
    (l.filter q).find? p = l.find? p := by
  induction l with
  | nil => rfl
  | cons a l ih =>
    by_cases hq : q a = true
    · rw [List.filter_cons_of_pos hq]
      by_cases hp : p a = true
      · rw [List.find?_cons_of_pos _ hp, List.find?_cons_of_pos _ hp]
      · rw [List.find?_cons_of_neg _ hp, List.find?_cons_of_neg _ hp]
        exact ih
    · rw [List.filter_cons_of_neg (by simpa using hq)]
      rw [List.find?_cons_of_neg]
      · exact ih
      · intro hp
        exact hq (hpq a hp)

/-- Upserting a record under a different key leaves the lookup of a key
unchanged. -/
theorem lookupMenu_addMenu_ne (store : MenuStore) (item : MenuItem)
    (path : List TushanCategoryPathInfo) (k : Option String) (hne : item.key ≠ k) :
    lookupMenu (addMenu store item path) k = lookupMenu store k := by
  unfold lookupMenu addMenu
  rw [List.find?_append]
  have h1 : List.find? (fun r : MenuRecord => r.item.key == k) [⟨item, path⟩] = none := by
    simp [hne]
  have h2 : ∀ x : MenuRecord, (x.item.key == k) = true → (!(x.item.key == item.key)) = true := by
    intro x hx
    simp only [beq_iff_eq] at hx
    simp only [Bool.not_eq_true', beq_eq_false_iff_ne, ne_eq, hx]
    intro hcontra
    exact hne (by rw [hcontra])
  rw [h1, Option.or_none, find?_filter_of_imp store _ _ h2]

/-- Registering any number of records whose keys all differ from a key
leaves the lookup of that key unchanged. -/
theorem lookupMenu_foldl_addMenu (filtered : List PathedElement) (store : MenuStore)
    (k : Option String) (hk : ∀ r ∈ filtered, (menuItemOf r.element).key ≠ k) :
    lookupMenu
        (filtered.foldl (fun s route => addMenu s (menuItemOf route.element) route.path) store) k
      = lookupMenu store k := by
  induction filtered generalizing store with
  | nil => rfl
  | cons a l ih =>
    rw [List.foldl_cons]
    rw [ih _ (fun r hr => hk r (List.mem_cons_of_mem a hr))]
    exact lookupMenu_addMenu_ne store _ a.path k (hk a (List.mem_cons_self a l))

/- ---------------------------------------------------------------------
   Claim theorems.
   --------------------------------------------------------------------- -/

/-- C1: the claim fails on the code (code bug).  Evaluating the registrar
cleanup on the previous evaluation filtered entries [users, posts]:
instead of removing the records keyed "users" and "posts" from the store,
the cleanup raises a TypeError at its first iteration (source line 79 reads
route.props.name, but an entry has shape { path, element }, so route.props
is undefined), hence no record is removed and the store still holds the
record keyed "posts"; the claimed post-state (store containing only
"users") is never reached. -/
theorem cleanup_raises_typeError_removes_nothing :
    (cleanupMenus
        [⟨[], .resource ⟨"users", none, none⟩⟩, ⟨[], .resource ⟨"posts", none, none⟩⟩]
        (registerMenus
          [⟨[], .resource ⟨"users", none, none⟩⟩, ⟨[], .resource ⟨"posts", none, none⟩⟩]
          (fun _ => true) [])
      = Except.error JsError.typeError)
    ∧ (lookupMenu
        (registerMenus
          [⟨[], .resource ⟨"users", none, none⟩⟩, ⟨[], .resource ⟨"posts", none, none⟩⟩]
          (fun _ => true) [])
        (some "posts")).isSome = true :=
  ⟨rfl, rfl⟩

/-- C2: the claim fails on the code (code bug).  Merging an empty
classification with one containing two resource entries yields a resources
array holding a single element, namely the whole new list nested, whereas
the element-wise append the spec describes would hold the two entries. -/
theorem merge_nests_new_lists :
    (mergeRoutesAndResources ⟨[], [], [], []⟩
        ⟨[], [],
         [⟨[], .resource ⟨"users", none, none⟩⟩, ⟨[], .resource ⟨"posts", none, none⟩⟩],
         []⟩).resources
      = [Sum.inr [⟨[], .resource ⟨"users", none, none⟩⟩, ⟨[], .resource ⟨"posts", none, none⟩⟩]]
    ∧ (mergeRoutesAndResources ⟨[], [], [], []⟩
        ⟨[], [],
         [⟨[], .resource ⟨"users", none, none⟩⟩, ⟨[], .resource ⟨"posts", none, none⟩⟩],
         []⟩).resources.length = 1
    ∧ (mergeRoutesAndResourcesSpec ⟨[], [], [], []⟩
        ⟨[], [],
         [⟨[], .resource ⟨"users", none, none⟩⟩, ⟨[], .resource ⟨"posts", none, none⟩⟩],
         []⟩).resources.length = 2 :=
  ⟨rfl, rfl, rfl⟩

/-- C3: the claim fails on the code (code bug).  After a first render with
children [users] and a second render with children [users, posts] (a new
tree reference), the hook still returns the classification of the first
tree, which differs from the classification of the new tree: the useState
cell is never updated after the first render.  (Returning the previous
result unchanged for an unchanged reference does hold.) -/
theorem classification_stale_after_children_change :
    ((useRoutesAndResourcesFromChildren
        (useRoutesAndResourcesFromChildren none
          (.cons (.resource ⟨"users", none, none⟩) .nil)).2
        (.cons (.resource ⟨"users", none, none⟩)
          (.cons (.resource ⟨"posts", none, none⟩) .nil))).1
      = getRoutesAndResourceFromNodes (.cons (.resource ⟨"users", none, none⟩) .nil) [])
    ∧ ((useRoutesAndResourcesFromChildren
        (useRoutesAndResourcesFromChildren none
          (.cons (.resource ⟨"users", none, none⟩) .nil)).2
        (.cons (.resource ⟨"users", none, none⟩)
          (.cons (.resource ⟨"posts", none, none⟩) .nil))).1
      ≠ getRoutesAndResourceFromNodes
          (.cons (.resource ⟨"users", none, none⟩)
            (.cons (.resource ⟨"posts", none, none⟩) .nil)) []) :=
  ⟨rfl, by decide⟩

/-- C4: the claim fails on the code (code bug).  The value returned by the
hook is exactly the classification record of the four lists: no status is
derived or made available (the AdminRouterStatus type of source line 231 is
declared but never produced), although the doc comment at source lines
24-35 promises a status alongside the lists. -/
theorem hook_returns_only_four_lists (children : NodeList) :
    (useConfigureAdminRouterFromChildren none children).1
      = getRoutesAndResourceFromNodes children [] := rfl

/-- C5: confirmed.  The recorded path of every classified resource or
layout-wrapped route entry equals the starting path followed by the
segments of the enclosing Category markers in root-to-leaf order:
(1) classification under a starting path p equals classification under []
with p prefixed onto every recorded path; (2) a Fragment passes the path
through unchanged; (3) a Category extends the path by exactly the one
segment built from its own props (children excluded); (4) leaf entries
record the current path itself, contributing no segment of their own. -/
theorem paths_are_start_plus_category_segments
    (cs : NodeList) (p : List TushanCategoryPathInfo) (info : TushanCategoryPathInfo)
    (rp : ResourceProps) (props : CustomRoutesProp) :
    ((getRoutesAndResourceFromNodes cs p).resources
        = ((getRoutesAndResourceFromNodes cs []).resources).map (shiftEntry p)
      ∧ (getRoutesAndResourceFromNodes cs p).customRoutesWithLayout
        = ((getRoutesAndResourceFromNodes cs []).customRoutesWithLayout).map (shiftEntry p))
    ∧ ((getRoutesAndResourceFromNodes (.cons (.fragment cs) .nil) p).resources
        = (getRoutesAndResourceFromNodes cs p).resources
      ∧ (getRoutesAndResourceFromNodes (.cons (.fragment cs) .nil) p).customRoutesWithLayout
        = (getRoutesAndResourceFromNodes cs p).customRoutesWithLayout)
    ∧ ((getRoutesAndResourceFromNodes (.cons (.category info cs) .nil) p).resources
        = (getRoutesAndResourceFromNodes cs (p ++ [info])).resources
      ∧ (getRoutesAndResourceFromNodes (.cons (.category info cs) .nil) p).customRoutesWithLayout
        = (getRoutesAndResourceFromNodes cs (p ++ [info])).customRoutesWithLayout)
    ∧ ((getRoutesAndResourceFromNodes (.cons (.resource rp) .nil) p).resources
        = [⟨p, .resource rp⟩]
      ∧ (getRoutesAndResourceFromNodes
            (.cons (.customRoute { props with noLayout := false }) .nil) p).customRoutesWithLayout
        = [⟨p, .customRoute { props with noLayout := false }⟩]) := by
  refine ⟨⟨?_, ?_⟩, ⟨?_, ?_⟩, ⟨?_, ?_⟩, ⟨?_, ?_⟩⟩
  · have h := classify_path_shift cs [] p
    rw [List.append_nil] at h
    rw [h]
  · have h := classify_path_shift cs [] p
    rw [List.append_nil] at h
    rw [h]
  · rw [classify_cons_fragment, classify_nil]
    simp
  · rw [classify_cons_fragment, classify_nil]
    simp
  · rw [classify_cons_category, classify_nil]
    simp
  · rw [classify_cons_category, classify_nil]
    simp
  · rw [classify_cons_resource, classify_nil]
  · rw [classify_cons_customRoute, classify_nil]
    simp

/-- C6: confirmed.  For every tree, starting path and element value: the
passthrough (components) list contains the element exactly once per visit
of the walk, and across the three classified lists together the element
occurs exactly once per visit when it matches a marker leaf type
(CustomRoute or Resource) and not at all otherwise — so a leaf visited once
lies in exactly one classified list (none if it matches no marker type)
while appearing in the passthrough list exactly once regardless. -/
theorem leaf_classified_once_passthrough_once (cs : NodeList)
    (p : List TushanCategoryPathInfo) (e : ReactNode) :
    ((getRoutesAndResourceFromNodes cs p).components.countP (fun x => x == e)
        = visitCount e cs)
    ∧ (classifiedCount (getRoutesAndResourceFromNodes cs p) e
        = if isMarkerLeaf e then visitCount e cs else 0) :=
  ⟨components_count cs p e, classified_count cs p e⟩

/-- C7: confirmed.  A custom route with the noLayout flag set is classified
into the layout-free list as the raw element (no path wrapper) and never
appears in any layout-wrapped entry of any classification; without the
flag it is classified into the layout-wrapped list as a pair carrying the
computed path and never appears in the layout-free list of any
classification. -/
theorem noLayout_routes_classified_layout_free
    (props : CustomRoutesProp) (rest cs : NodeList)
    (p q : List TushanCategoryPathInfo) :
    (props.noLayout = true →
      ((getRoutesAndResourceFromNodes (.cons (.customRoute props) rest) p).customRoutesWithoutLayout
          = .customRoute props
              :: (getRoutesAndResourceFromNodes rest p).customRoutesWithoutLayout)
      ∧ ((getRoutesAndResourceFromNodes (.cons (.customRoute props) rest) p).customRoutesWithLayout
          = (getRoutesAndResourceFromNodes rest p).customRoutesWithLayout)
      ∧ ((getRoutesAndResourceFromNodes cs q).customRoutesWithLayout.countP
            (fun r => r.element == ReactNode.customRoute props) = 0))
    ∧ (props.noLayout = false →
      ((getRoutesAndResourceFromNodes (.cons (.customRoute props) rest) p).customRoutesWithLayout
          = ⟨p, .customRoute props⟩
              :: (getRoutesAndResourceFromNodes rest p).customRoutesWithLayout)
      ∧ ((getRoutesAndResourceFromNodes (.cons (.customRoute props) rest) p).customRoutesWithoutLayout
          = (getRoutesAndResourceFromNodes rest p).customRoutesWithoutLayout)
      ∧ ((getRoutesAndResourceFromNodes cs q).customRoutesWithoutLayout.countP
            (fun x => x == ReactNode.customRoute props) = 0)) := by
  constructor
  · intro h
    refine ⟨?_, ?_, ?_⟩
    · rw [classify_cons_customRoute]
      simp [h]
    · rw [classify_cons_customRoute]
      simp [h]
    · rw [List.countP_eq_zero]
      intro r hr
      obtain ⟨pr, hpe, hpl⟩ := mem_customRoutesWithLayout cs q r hr
      simp only [hpe, beq_iff_eq]
      intro hh
      rcases hh with hh
      injection hh with hinj
      rw [hinj] at hpl
      rw [h] at hpl
      exact Bool.noConfusion hpl
  · intro h
    refine ⟨?_, ?_, ?_⟩
    · rw [classify_cons_customRoute]
      simp [h]
    · rw [classify_cons_customRoute]
      simp [h]
    · rw [List.countP_eq_zero]
      intro x hx
      obtain ⟨pr, hpe, hpl⟩ := mem_customRoutesWithoutLayout cs q x hx
      simp only [hpe, beq_iff_eq]
      intro hh
      rcases hh with hh
      injection hh with hinj
      rw [hinj] at hpl
      rw [h] at hpl
      exact Bool.noConfusion hpl

/-- Witness for C7: at a concrete no-layout route the layout-free list holds
the raw element, and at a concrete with-layout route the layout-wrapped
list holds the pair with the computed (empty) path. -/
theorem noLayout_routes_classified_layout_free_witness :
    ((getRoutesAndResourceFromNodes
        (.cons (.customRoute ⟨"bare", none, none, true, false⟩) .nil) []).customRoutesWithoutLayout
      = [.customRoute ⟨"bare", none, none, true, false⟩])
    ∧ ((getRoutesAndResourceFromNodes
        (.cons (.customRoute ⟨"framed", none, none, false, false⟩) .nil) []).customRoutesWithLayout
      = [⟨[], .customRoute ⟨"framed", none, none, false, false⟩⟩]) := by
  constructor
  · have h := (noLayout_routes_classified_layout_free
      ⟨"bare", none, none, true, false⟩ .nil .nil [] []).1 rfl
    rw [h.1, classify_nil]
  · have h := (noLayout_routes_classified_layout_free
      ⟨"framed", none, none, false, false⟩ .nil .nil [] []).2 rfl
    rw [h.1, classify_nil]

/-- C8: confirmed.  The registrar filter for layout-wrapped routes excludes
every entry whose element has the noMenu flag set, so if every route
carrying a given key has the flag set, registration leaves the store
unchanged at that key — no menu record keyed by that name is ever added —
even though the hook returns such entries unfiltered in its layout-wrapped
list. -/
theorem noMenu_routes_never_registered
    (routes : List PathedElement) (store : MenuStore) (k : Option String)
    (hk : ∀ r ∈ routes, (menuItemOf r.element).key = k → r.element.propsNoMenuIsTrue = true) :
    (∀ r ∈ routes, r.element.propsNoMenuIsTrue = true → r ∉ routes.filter noMenuFilterFn)
    ∧ (lookupMenu (registerMenus routes noMenuFilterFn store) k = lookupMenu store k)
    ∧ (∀ children : NodeList,
        (useConfigureAdminRouterFromChildren none children).1.customRoutesWithLayout
          = (getRoutesAndResourceFromNodes children []).customRoutesWithLayout) := by
  refine ⟨?_, ?_, fun children => rfl⟩
  · intro r _ hmenu hcontra
    have := (List.mem_filter.1 hcontra).2
    rw [noMenuFilterFn, hmenu] at this
    exact Bool.noConfusion this
  · unfold registerMenus
    apply lookupMenu_foldl_addMenu
    intro r hr hkey
    have hmem := (List.mem_filter.1 hr).1
    have hfil := (List.mem_filter.1 hr).2
    have hmenu := hk r hmem hkey
    rw [noMenuFilterFn, hmenu] at hfil
    exact Bool.noConfusion hfil

/-- Witness for C8: registering a single layout-wrapped route named
"secret" with the noMenu flag set leaves the empty store without any record
keyed "secret". -/
theorem noMenu_routes_never_registered_witness :
    lookupMenu
        (registerMenus [⟨[], .customRoute ⟨"secret", none, none, false, true⟩⟩]
          noMenuFilterFn [])
        (some "secret") = none := by
  have h := noMenu_routes_never_registered
    [⟨[], .customRoute ⟨"secret", none, none, false, true⟩⟩] [] (some "secret")
    (by decide)
  exact h.2.1.trans rfl

/-- C9: confirmed.  In the passthrough (components) list, a Fragment or
Category wrapper element is appended only after all passthrough entries
contributed by its own children subtree: the recursive components are
pushed first, then the wrapper itself, before any later sibling
contribution. -/
theorem wrapper_after_descendants_in_passthrough (cs rest : NodeList)
    (info : TushanCategoryPathInfo) (p : List TushanCategoryPathInfo) :
    ((getRoutesAndResourceFromNodes (.cons (.fragment cs) rest) p).components
        = (getRoutesAndResourceFromNodes cs p).components ++ [.fragment cs]
          ++ (getRoutesAndResourceFromNodes rest p).components)
    ∧ ((getRoutesAndResourceFromNodes (.cons (.category info cs) rest) p).components
        = (getRoutesAndResourceFromNodes cs (p ++ [info])).components ++ [.category info cs]
          ++ (getRoutesAndResourceFromNodes rest p).components) := by
  constructor
  · rw [classify_cons_fragment]
  · rw [classify_cons_category]

/-- C10: confirmed.  The classifier never mutates the path array it is
given: running the heap-explicit classifier only extends the heap with
freshly allocated arrays (the Category case allocates [...path, segment]
fresh), so every pre-existing array — in particular the path array passed
in — reads back unchanged after the call. -/
theorem classifier_does_not_mutate_path (cs : NodeList) (ref : Nat) (h : PathHeap)
    (hv : ref < h.arrays.length) :
    (((getRoutesAndResourceFromNodesHeap cs ref h).2).readArr ref = h.readArr ref)
    ∧ (∃ ext, ((getRoutesAndResourceFromNodesHeap cs ref h).2).arrays = h.arrays ++ ext) := by
  obtain ⟨ext, he⟩ := heap_classify_extends cs ref h
  exact ⟨readArr_of_extends _ _ _ he _ hv, ext, he⟩

/-- Witness for C10: on a concrete tree with a Category wrapper, starting
from a one-array heap, the path array at reference 0 reads back unchanged. -/
theorem classifier_does_not_mutate_path_witness :
    0 < (PathHeap.mk [[]]).arrays.length
    ∧ (((getRoutesAndResourceFromNodesHeap
        (.cons (.category ⟨"cat", none⟩ (.cons (.resource ⟨"users", none, none⟩) .nil)) .nil)
        0 ⟨[[]]⟩).2).readArr 0 = PathHeap.readArr ⟨[[]]⟩ 0) :=
  ⟨by decide,
   (classifier_does_not_mutate_path
      (.cons (.category ⟨"cat", none⟩ (.cons (.resource ⟨"users", none, none⟩) .nil)) .nil)
      0 ⟨[[]]⟩ (by decide)).1⟩

end Tushan
